import Mathlib

/-!
Verification of the multi-client authenticated-session and batch-execution
engine of the eq_dashboard trading gateway.

The Python source is shallowly embedded: pure helpers become Lean functions,
the stateful token cache becomes explicit state passing over an association
list, network I/O becomes an oracle environment plus an explicit effect
trace, and the asyncio semaphore of the batch engine becomes a small-step
transition system.  Times are modelled as whole minutes since an epoch that
falls on a UTC midnight.  Python Decimal values are modelled as rationals,
Python int as Int, and Python truthiness of optional strings / numbers is
made explicit by small helper functions.
-/

/-- Python truthiness of an optional string: None and the empty string are
falsy, every other string is truthy. -/
def pyTruthyStr : Option String → Bool
  | none => false
  | some s => !s.isEmpty

/-- Python truthiness of an optional Decimal: None and 0 are falsy. -/
def pyTruthyRat : Option ℚ → Bool
  | none => false
  | some q => !(q == 0)

/-- Python `a or b` on optional Decimals (used for `client_order.price or
batch_request.default_price`): the left value if truthy, else the right. -/
def pyOrRat (a b : Option ℚ) : Option ℚ :=
  if pyTruthyRat a then a else b

/-! ## Token expiry (`MOFSLApiWrapper._calculate_token_expiry`) -/

/-- IST offset from UTC (+5:30) in minutes. -/
def istOffsetMin : Nat := 330

/-- Minutes in a day. -/
def minutesPerDay : Nat := 1440

/-- The 06:00 IST daily cutoff, in minutes after local midnight. -/
def cutoffMin : Nat := 360

/-- Embeds `_calculate_token_expiry`.  `nowUtc` is the current time in
minutes since an epoch midnight UTC.  The source converts to IST by adding
5:30, tests `ist_now.hour < 6`, truncates to the start of the (current or
next) IST day plus 06:00, and converts back to UTC. -/
def calculateTokenExpiry (nowUtc : Nat) : Nat :=
  let istNow := nowUtc + istOffsetMin
  let expiryIst :=
    if (istNow % minutesPerDay) / 60 < 6 then
      istNow - istNow % minutesPerDay + cutoffMin
    else
      (istNow + minutesPerDay) - ((istNow + minutesPerDay) % minutesPerDay) + cutoffMin
  expiryIst - istOffsetMin

/-- C4: the session expiry follows the fixed daily-cutoff rule in IST: the
expiry instant is always at 06:00 IST, and it falls on the current IST day
exactly when the current IST time is strictly before 06:00, otherwise
(including exactly 06:00 and 23:00) on the next IST day. -/
theorem claim_C4_daily_cutoff_expiry (nowUtc : Nat) :
    (calculateTokenExpiry nowUtc + istOffsetMin) % minutesPerDay = cutoffMin ∧
    (if (nowUtc + istOffsetMin) % minutesPerDay < cutoffMin then
      (calculateTokenExpiry nowUtc + istOffsetMin) / minutesPerDay
        = (nowUtc + istOffsetMin) / minutesPerDay
    else
      (calculateTokenExpiry nowUtc + istOffsetMin) / minutesPerDay
        = (nowUtc + istOffsetMin) / minutesPerDay + 1) := by
  simp only [calculateTokenExpiry, istOffsetMin, minutesPerDay, cutoffMin]
  split_ifs <;> omega

/-! ## Session manager (`MOFSLApiWrapper.authenticate_client` and friends) -/

/-- Embeds the `AuthToken` dataclass. -/
structure AuthToken where
  token : String
  clientId : Int
  expiresAt : Nat
  createdAt : Nat
deriving Repr, DecidableEq

/-- Embeds `AuthToken.is_expired`: `datetime.now(timezone.utc) >= self.expires_at`. -/
def AuthToken.isExpired (t : AuthToken) (now : Nat) : Bool :=
  t.expiresAt ≤ now

/-- The four encrypted credential columns of one segment of a `Client` row
(`encrypted_mofsl_*_interactive` or `..._commodity`); `none` models SQL NULL. -/
structure CredSet where
  apiKey : Option String
  secretKey : Option String
  userId : Option String
  password : Option String
deriving Repr, DecidableEq

/-- Embeds the `Client` row fields the core reads. -/
structure Client where
  id : Int
  clientCode : String
  isActive : Bool
  interactive : CredSet
  commodity : CredSet
deriving Repr, DecidableEq

/-- Embeds the decrypted `MOFSLCredentials` dataclass. -/
structure MOFSLCredentials where
  apiKey : String
  secretKey : String
  userId : String
  password : String
deriving Repr, DecidableEq

/-- Embeds `MOFSLCredentials.validate`: every required field must be truthy
and have a truthy `.strip()` (i.e. contain a non-whitespace character). -/
def MOFSLCredentials.validate (c : MOFSLCredentials) : Bool :=
  !c.apiKey.trim.isEmpty && !c.secretKey.trim.isEmpty &&
    !c.userId.trim.isEmpty && !c.password.trim.isEmpty

/-- Observable side effects of the wrapper: one `decryptData` per
`decrypt_data` call, one `upstreamAuthCall` per authentication POST, one
`upstreamPlaceOrder` per place-order POST. -/
inductive Effect where
  | decryptData (ciphertext : String)
  | upstreamAuthCall (clientId : Int)
  | upstreamPlaceOrder (clientCode : String)
deriving Repr, DecidableEq

/-- The body of the upstream auth response, once JSON-parsed.  `fields`
holds the string entries of the JSON object (used for token extraction). -/
structure AuthBody where
  status : Option String
  message : Option String
  fields : List (String × String)
deriving Repr, DecidableEq

/-- An upstream HTTP response to the authentication POST; `body = none`
models a payload `response.json()` fails to parse. -/
structure AuthHttpResponse where
  statusCode : Nat
  body : Option AuthBody
deriving Repr, DecidableEq

/-- Oracle for the external world of the session manager: the credential
vault's `decrypt_data` (which may raise) and the upstream auth endpoint. -/
structure AuthEnv where
  decryptData : String → Except String String
  authHttp : Int → AuthHttpResponse

/-- `response_data.get(field)` restricted to string values. -/
def lookupField (fields : List (String × String)) (k : String) : Option String :=
  (fields.find? (fun kv => kv.1 == k)).map (fun kv => kv.2)

/-- The token cache `self._auth_tokens : Dict[int, AuthToken]`, modelled as
an association list with unique keys. -/
abbrev TokenCache := List (Int × AuthToken)

/-- Python dict assignment `d[k] = v`: replace the entry for `k` if present,
otherwise append. -/
def dictInsert (k : Int) (v : AuthToken) : List (Int × AuthToken) → List (Int × AuthToken)
  | [] => [(k, v)]
  | (k', v') :: rest =>
    if k' = k then (k, v) :: rest else (k', v') :: dictInsert k v rest

/-- Python dict lookup `d.get(k)` / `k in d`. -/
def dictLookup (k : Int) : List (Int × AuthToken) → Option AuthToken
  | [] => none
  | (k', v') :: rest => if k' = k then some v' else dictLookup k rest

/-- Embeds `_decrypt_client_credentials`: select the segment's encrypted
columns, fail if any is missing/empty, call `decrypt_data` on each, validate
the decrypted result.  Returns the result together with the trace of
`decrypt_data` calls made. -/
def decryptClientCredentials (env : AuthEnv) (client : Client) (segment : String) :
    Except String MOFSLCredentials × List Effect :=
  let sel : Option CredSet :=
    if segment == "interactive" then some client.interactive
    else if segment == "commodity" then some client.commodity
    else none
  match sel with
  | none =>
    (Except.error ("Failed to decrypt credentials: Invalid segment: " ++ segment), [])
  | some cs =>
    if !(pyTruthyStr cs.apiKey && pyTruthyStr cs.secretKey &&
          pyTruthyStr cs.userId && pyTruthyStr cs.password) then
      (Except.error ("Failed to decrypt credentials: Missing " ++ segment ++
        " credentials for client " ++ client.clientCode), [])
    else
      let ea := cs.apiKey.getD ""
      let es := cs.secretKey.getD ""
      let eu := cs.userId.getD ""
      let ep := cs.password.getD ""
      match env.decryptData ea with
      | Except.error e => (Except.error ("Failed to decrypt credentials: " ++ e),
          [Effect.decryptData ea])
      | Except.ok a =>
        match env.decryptData es with
        | Except.error e => (Except.error ("Failed to decrypt credentials: " ++ e),
            [Effect.decryptData ea, Effect.decryptData es])
        | Except.ok s =>
          match env.decryptData eu with
          | Except.error e => (Except.error ("Failed to decrypt credentials: " ++ e),
              [Effect.decryptData ea, Effect.decryptData es, Effect.decryptData eu])
          | Except.ok u =>
            match env.decryptData ep with
            | Except.error e => (Except.error ("Failed to decrypt credentials: " ++ e),
                [Effect.decryptData ea, Effect.decryptData es, Effect.decryptData eu,
                 Effect.decryptData ep])
            | Except.ok p =>
              let creds : MOFSLCredentials :=
                { apiKey := a, secretKey := s, userId := u, password := p }
              let tr := [Effect.decryptData ea, Effect.decryptData es,
                         Effect.decryptData eu, Effect.decryptData ep]
              if !creds.validate then
                (Except.error ("Failed to decrypt credentials: Invalid decrypted credentials for client "
                  ++ client.clientCode), tr)
              else
                (Except.ok creds, tr)

/-- Embeds `_handle_auth_response`: 200 with a parsed body whose `status` is
"success" or that carries a truthy `AuthToken` field is success; everything
else raises with the upstream message. -/
def handleAuthResponse (resp : AuthHttpResponse) : Except String AuthBody :=
  if resp.statusCode == 200 then
    match resp.body with
    | none => Except.error "Invalid response format: response body is not JSON"
    | some body =>
      if body.status == some "success" || pyTruthyStr (lookupField body.fields "AuthToken") then
        Except.ok body
      else
        Except.error ("Authentication failed: " ++ (body.message.getD "Unknown error"))
  else
    match resp.body with
    | some body =>
      Except.error ("Authentication failed: " ++
        (body.message.getD ("HTTP " ++ toString resp.statusCode)))
    | none => Except.error ("Authentication failed: HTTP " ++ toString resp.statusCode)

/-- The fixed priority order of token field names in `_extract_auth_token`. -/
def tokenFieldNames : List String := ["AuthToken", "authToken", "token", "access_token"]

/-- Embeds `_extract_auth_token`: first truthy candidate field wins. -/
def extractAuthToken (body : AuthBody) : Except String String :=
  match tokenFieldNames.findSome? (fun f =>
      match lookupField body.fields f with
      | some v => if v.isEmpty then none else some v
      | none => none) with
  | some v => Except.ok v
  | none => Except.error "Auth token not found in response"

/-- Embeds `authenticate_client`.  Returns the result, the new cache and the
trace of effects.  Lines 277-282 of the source are the cached fast path:
unless `force_refresh`, a cached unexpired token is returned as-is with no
decryption and no upstream call. -/
def authenticateClient (env : AuthEnv) (cache : TokenCache) (client : Client)
    (segment : String) (forceRefresh : Bool) (now : Nat) :
    Except String AuthToken × TokenCache × List Effect :=
  let cachedHit : Option AuthToken :=
    if forceRefresh then none
    else match dictLookup client.id cache with
      | some t => if t.isExpired now then none else some t
      | none => none
  match cachedHit with
  | some t => (Except.ok t, cache, [])
  | none =>
    match decryptClientCredentials env client segment with
    | (Except.error e, tr) => (Except.error ("Authentication failed: " ++ e), cache, tr)
    | (Except.ok _, tr) =>
      let tr := tr ++ [Effect.upstreamAuthCall client.id]
      let resp := env.authHttp client.id
      match handleAuthResponse resp with
      | Except.error e => (Except.error ("Authentication failed: " ++ e), cache, tr)
      | Except.ok body =>
        match extractAuthToken body with
        | Except.error e => (Except.error ("Authentication failed: " ++ e), cache, tr)
        | Except.ok tokVal =>
          let tok : AuthToken :=
            { token := tokVal, clientId := client.id,
              expiresAt := calculateTokenExpiry now, createdAt := now }
          (Except.ok tok, dictInsert client.id tok cache, tr)

/-- C1: with `force_refresh = false` and a cached token satisfying
`now < expires_at`, `authenticate_client` returns that very token, leaves
the cache untouched, and performs no decryption and no upstream call
(empty effect trace). -/
theorem claim_C1_cached_session_fast_path (env : AuthEnv) (cache : TokenCache)
    (client : Client) (segment : String) (now : Nat) (tok : AuthToken)
    (hcache : dictLookup client.id cache = some tok)
    (hfresh : now < tok.expiresAt) :
    authenticateClient env cache client segment false now = (Except.ok tok, cache, []) := by
  have hexp : tok.isExpired now = false := by
    simp [AuthToken.isExpired, decide_eq_false_iff_not]
    omega
  simp [authenticateClient, hcache, hexp]

/-- Witness for C1 at a concrete cache, client and clock. -/
theorem claim_C1_witness :
    let tok : AuthToken := { token := "T", clientId := 7, expiresAt := 100, createdAt := 0 }
    let client : Client :=
      { id := 7, clientCode := "C7", isActive := true,
        interactive := ⟨none, none, none, none⟩, commodity := ⟨none, none, none, none⟩ }
    let env : AuthEnv :=
      { decryptData := fun s => Except.ok s,
        authHttp := fun _ => { statusCode := 500, body := none } }
    authenticateClient env [(7, tok)] client "interactive" false 50
      = (Except.ok tok, [(7, tok)], []) := by
  exact claim_C1_cached_session_fast_path _ _ _ _ 50 _ (by decide) (by decide)

/-- Keys present after a dict insert: the inserted key plus the old keys. -/
lemma mem_keys_dictInsert (a k : Int) (v : AuthToken) (l : List (Int × AuthToken)) :
    a ∈ (dictInsert k v l).map Prod.fst ↔ a = k ∨ a ∈ l.map Prod.fst := by
  induction l with
  | nil => simp [dictInsert]
  | cons hd tl ih =>
    obtain ⟨k', v'⟩ := hd
    by_cases h : k' = k
    · subst h
      simp [dictInsert]
    · simp [dictInsert, h, ih]
      tauto

/-- Dict insert preserves distinctness of keys. -/
lemma nodup_keys_dictInsert (k : Int) (v : AuthToken) (l : List (Int × AuthToken))
    (h : (l.map Prod.fst).Nodup) : ((dictInsert k v l).map Prod.fst).Nodup := by
  induction l with
  | nil => simp [dictInsert]
  | cons hd tl ih =>
    obtain ⟨k', v'⟩ := hd
    simp only [List.map_cons, List.nodup_cons] at h
    by_cases hk : k' = k
    · subst hk
      simpa [dictInsert] using h
    · simp only [dictInsert, if_neg hk, List.map_cons, List.nodup_cons]
      refine ⟨?_, ih h.2⟩
      rw [mem_keys_dictInsert]
      rintro (rfl | hmem)
      · exact hk rfl
      · exact h.1 hmem

/-- Looking up the freshly inserted key returns the fresh value. -/
lemma dictLookup_dictInsert_self (k : Int) (v : AuthToken) (l : List (Int × AuthToken)) :
    dictLookup k (dictInsert k v l) = some v := by
  induction l with
  | nil => simp [dictInsert, dictLookup]
  | cons hd tl ih =>
    obtain ⟨k', v'⟩ := hd
    by_cases h : k' = k <;> simp [dictInsert, dictLookup, h, ih]

/-- A map with distinct keys holds at most one entry for any client id. -/
lemma countP_key_le_one (k : Int) (l : List (Int × AuthToken))
    (h : (l.map Prod.fst).Nodup) : l.countP (fun e => e.1 == k) ≤ 1 := by
  induction l with
  | nil => simp
  | cons hd tl ih =>
    obtain ⟨k', v'⟩ := hd
    simp only [List.map_cons, List.nodup_cons] at h
    by_cases hk : k' = k
    · subst hk
      have hz : tl.countP (fun e => e.1 == k') = 0 := by
        rw [List.countP_eq_zero]
        intro e he
        simp only [beq_iff_eq]
        intro heq
        exact h.1 (heq ▸ List.mem_map_of_mem Prod.fst he)
      simp [List.countP_cons, hz]
    · have := ih h.2
      simp [List.countP_cons, hk]
      omega

/-- Structural characterisation of `authenticate_client`: either the cache
is returned unchanged (and any successfully returned token was already the
cached entry for this client), or the call succeeded against the upstream
and the cache is the old cache with the new token written at the client id. -/
lemma authenticateClient_cache_spec (env : AuthEnv) (cache : TokenCache)
    (client : Client) (segment : String) (forceRefresh : Bool) (now : Nat) :
    ((authenticateClient env cache client segment forceRefresh now).2.1 = cache ∧
      ∀ tok, (authenticateClient env cache client segment forceRefresh now).1 = Except.ok tok →
        dictLookup client.id cache = some tok) ∨
    (∃ tok, (authenticateClient env cache client segment forceRefresh now).1 = Except.ok tok ∧
      (authenticateClient env cache client segment forceRefresh now).2.1
        = dictInsert client.id tok cache) := by
  unfold authenticateClient
  dsimp only
  split
  case _ t ht =>
    left
    refine ⟨rfl, ?_⟩
    intro tok htok
    cases htok
    split at ht
    · exact absurd ht (by simp)
    · split at ht
      · split at ht
        · exact absurd ht (by simp)
        · rename_i heq _    -- dictLookup ... = some t'
          simp only [Option.some.injEq] at ht
          rw [heq, ht]
      · exact absurd ht (by simp)
  case _ =>
    split
    case _ e tr hdec => left; exact ⟨rfl, by intro tok h; cases h⟩
    case _ creds tr hdec =>
      split
      case _ e herr => left; exact ⟨rfl, by intro tok h; cases h⟩
      case _ body hok =>
        split
        case _ e herr => left; exact ⟨rfl, by intro tok h; cases h⟩
        case _ tokVal hext => right; exact ⟨_, rfl, rfl⟩

/-- C7: starting from a cache with at most one session per client id (keys
distinct), `authenticate_client` preserves that invariant, the resulting
cache holds at most one entry for the requested client, and whenever the
call succeeds the session stored under the client id is exactly the returned
one — so re-authenticating for a different segment replaces the existing
session rather than coexisting with it. -/
theorem claim_C7_one_session_per_client (env : AuthEnv) (cache : TokenCache)
    (client : Client) (segment : String) (forceRefresh : Bool) (now : Nat)
    (hnodup : (cache.map Prod.fst).Nodup) :
    (((authenticateClient env cache client segment forceRefresh now).2.1.map Prod.fst).Nodup) ∧
    ((authenticateClient env cache client segment forceRefresh now).2.1.countP
        (fun e => e.1 == client.id) ≤ 1) ∧
    (∀ tok, (authenticateClient env cache client segment forceRefresh now).1 = Except.ok tok →
      dictLookup client.id (authenticateClient env cache client segment forceRefresh now).2.1
        = some tok) := by
  rcases authenticateClient_cache_spec env cache client segment forceRefresh now with
    ⟨hunch, hlook⟩ | ⟨tok, hres, hins⟩
  · rw [hunch]
    exact ⟨hnodup, countP_key_le_one _ _ hnodup, fun t ht => hlook t ht⟩
  · rw [hins]
    have hnd := nodup_keys_dictInsert client.id tok cache hnodup
    refine ⟨hnd, countP_key_le_one _ _ hnd, ?_⟩
    intro t ht
    rw [hres] at ht
    cases ht
    exact dictLookup_dictInsert_self _ _ _

/-- Witness for C7 at a concrete cache and client. -/
theorem claim_C7_witness :
    let tok : AuthToken := { token := "T", clientId := 7, expiresAt := 100, createdAt := 0 }
    let client : Client :=
      { id := 7, clientCode := "C7", isActive := true,
        interactive := ⟨none, none, none, none⟩, commodity := ⟨none, none, none, none⟩ }
    let env : AuthEnv :=
      { decryptData := fun s => Except.ok s,
        authHttp := fun _ => { statusCode := 500, body := none } }
    let cache : TokenCache := [(7, tok)]
    ((cache.map Prod.fst).Nodup) ∧
    ((((authenticateClient env cache client "commodity" false 200).2.1.map Prod.fst).Nodup) ∧
     ((authenticateClient env cache client "commodity" false 200).2.1.countP
        (fun e => e.1 == client.id) ≤ 1) ∧
     (∀ t, (authenticateClient env cache client "commodity" false 200).1 = Except.ok t →
       dictLookup client.id (authenticateClient env cache client "commodity" false 200).2.1
         = some t)) :=
  ⟨by decide,
   claim_C7_one_session_per_client _ _ _ "commodity" false 200 (by decide)⟩

/-! ## Broker gateway: order validation and `place_order` -/

/-- Embeds the `OrderCreate` schema (fields of `OrderBase`). -/
structure OrderCreate where
  clientId : Int
  tokenId : Int
  orderType : String
  transactionType : String
  productType : String
  quantity : Int
  price : Option ℚ
  triggerPrice : Option ℚ
  disclosedQuantity : Int
  exchange : String
  validity : String
  remarks : Option String
deriving Repr, DecidableEq

/-- Python `not x or x <= 0` on an optional Decimal (the price and trigger
price checks of `_validate_order_details`). -/
def pyNotPos : Option ℚ → Bool
  | none => true
  | some q => (q == 0) || decide (q ≤ 0)

/-- Whether an optional Decimal is present and strictly positive. -/
def posOpt : Option ℚ → Bool
  | none => false
  | some q => decide (0 < q)

lemma pyNotPos_eq_not_posOpt (x : Option ℚ) : pyNotPos x = !posOpt x := by
  cases x with
  | none => rfl
  | some q =>
    by_cases h : 0 < q
    · have h1 : ¬ q ≤ 0 := not_le.mpr h
      have h2 : q ≠ 0 := ne_of_gt h
      simp [pyNotPos, posOpt, h, h1, h2]
    · have h1 : q ≤ 0 := not_lt.mp h
      simp [pyNotPos, posOpt, h, h1]

/-- Embeds `_validate_order_details`: the four local instruction invariants
checked before the payload is built and the request issued. -/
def validateOrderDetails (od : OrderCreate) : Except String Unit :=
  if od.quantity == 0 || decide (od.quantity ≤ 0) then
    Except.error "Order quantity must be greater than 0"
  else if (od.orderType == "LMT" || od.orderType == "SL") && pyNotPos od.price then
    Except.error "Price is required and must be greater than 0 for limit orders"
  else if (od.orderType == "SLM" || od.orderType == "SL") && pyNotPos od.triggerPrice then
    Except.error "Trigger price is required and must be greater than 0 for stop-loss orders"
  else if od.disclosedQuantity != 0 && decide (od.quantity < od.disclosedQuantity) then
    Except.error "Disclosed quantity cannot be greater than total quantity"
  else
    Except.ok ()

/-- The `order_type_mapping` table of `_map_order_to_mofsl_payload`
(`dict.get(key, key)` falls back to the key itself). -/
def orderTypeMapping (s : String) : String :=
  if s == "MKT" then "MARKET" else if s == "LMT" then "LIMIT"
  else if s == "SLM" then "SL-M" else if s == "SL" then "SL" else s

/-- The `transaction_type_mapping` table. -/
def transactionTypeMapping (s : String) : String :=
  if s == "BUY" then "B" else if s == "SELL" then "S" else s

/-- The `validity_mapping` lookup has default "DAY" rather than the key. -/
def validityMapping (s : String) : String :=
  if s == "DAY" || s == "IOC" || s == "GTD" then s else "DAY"

/-- Embeds `_map_order_to_mofsl_payload` (the `product_type_mapping` table
maps every key to itself, so it is the identity). -/
def mapOrderToMofslPayload (od : OrderCreate) (clientCode : String) : List (String × String) :=
  [("clientcode", clientCode),
   ("symboltoken", toString od.tokenId),
   ("transactiontype", transactionTypeMapping od.transactionType),
   ("ordertype", orderTypeMapping od.orderType),
   ("producttype", od.productType),
   ("quantity", toString od.quantity),
   ("exchange", od.exchange),
   ("validity", validityMapping od.validity)]
  ++ (match od.price with
      | some p => [("price", toString p)]
      | none => [])
  ++ (match od.triggerPrice with
      | some p => [("triggerprice", toString p)]
      | none => [])
  ++ (if od.disclosedQuantity != 0 && decide (0 < od.disclosedQuantity) then
        [("disclosedquantity", toString od.disclosedQuantity)]
      else [])
  ++ (match od.remarks with
      | some r => if r.isEmpty then [] else [("remarks", r.take 100)]
      | none => [])

/-- The `data` member of an upstream JSON response body. -/
inductive JsonData where
  | absent
  | nonDict
  | dict (fields : List (String × String))
deriving Repr, DecidableEq

/-- A parsed upstream JSON response to an authenticated POST. -/
structure ApiResponse where
  statusCode : Nat
  status : Option String
  message : Option String
  data : JsonData
  rootFields : List (String × String)
deriving Repr, DecidableEq

/-- Embeds the response interpretation of `_make_authenticated_request`:
200 with `status == "success"` or a `data` member is success, everything
else raises. -/
def interpretAuthenticatedResponse (resp : ApiResponse) : Except String ApiResponse :=
  if resp.statusCode == 200 then
    if resp.status == some "success" || !(resp.data == JsonData.absent) then
      Except.ok resp
    else
      Except.error ("API error: " ++ (resp.message.getD "Unknown error"))
  else
    Except.error ("Request failed: " ++ (resp.message.getD ("HTTP " ++ toString resp.statusCode)))

/-- The fixed ordered candidate field names of `_extract_order_id`. -/
def orderIdFieldNames : List String := ["uniqueorderid", "orderid", "order_id", "orderId"]

/-- First truthy candidate among some JSON object fields. -/
def firstTruthyField (fields : List (String × String)) (names : List String) : Option String :=
  names.findSome? (fun f =>
    match lookupField fields f with
    | some v => if v.isEmpty then none else some v
    | none => none)

/-- Embeds `_extract_order_id`: candidates are checked in the nested `data`
dict first, then at the top level of the response. -/
def extractOrderId (resp : ApiResponse) : Except String String :=
  let fromData : Option String :=
    match resp.data with
    | JsonData.dict fields => firstTruthyField fields orderIdFieldNames
    | _ => none
  match fromData with
  | some v => Except.ok v
  | none =>
    match firstTruthyField resp.rootFields orderIdFieldNames with
    | some v => Except.ok v
    | none => Except.error "Order ID not found in response"

/-- Oracle for the place-order endpoint: response as a function of the
request payload. -/
structure GatewayEnv where
  placeResp : List (String × String) → ApiResponse

/-- Embeds `place_order`: validate locally, build the payload, issue the
authenticated POST (recorded in the trace), interpret the response and
extract the order id. -/
def placeOrder (env : GatewayEnv) (od : OrderCreate) (clientCode : String) :
    Except String String × List Effect :=
  match validateOrderDetails od with
  | Except.error e => (Except.error e, [])
  | Except.ok _ =>
    let payload := mapOrderToMofslPayload od clientCode
    let tr := [Effect.upstreamPlaceOrder clientCode]
    match interpretAuthenticatedResponse (env.placeResp payload) with
    | Except.error e => (Except.error e, tr)
    | Except.ok resp =>
      match extractOrderId resp with
      | Except.error e => (Except.error e, tr)
      | Except.ok oid => (Except.ok oid, tr)

/-- The disjunction of local instruction invariant violations named by the
specification for `place_order`. -/
def orderViolation (od : OrderCreate) : Prop :=
  od.quantity ≤ 0 ∨
  ((od.orderType = "LMT" ∨ od.orderType = "SL") ∧ posOpt od.price = false) ∨
  ((od.orderType = "SLM" ∨ od.orderType = "SL") ∧ posOpt od.triggerPrice = false) ∨
  od.quantity < od.disclosedQuantity

instance (od : OrderCreate) : Decidable (orderViolation od) := by
  unfold orderViolation
  infer_instance

lemma validateOrderDetails_ok_iff (od : OrderCreate) :
    validateOrderDetails od = Except.ok () ↔ ¬ orderViolation od := by
  unfold validateOrderDetails orderViolation
  split_ifs with h1 h2 h3 h4
  · simp only [beq_iff_eq, Bool.or_eq_true, decide_eq_true_eq] at h1
    simp only [reduceCtorEq, false_iff, not_not]
    left
    rcases h1 with h | h
    · omega
    · exact h
  · rw [pyNotPos_eq_not_posOpt] at h2
    simp only [Bool.and_eq_true, Bool.or_eq_true, beq_iff_eq, Bool.not_eq_true'] at h2
    simp only [reduceCtorEq, false_iff, not_not]
    right; left
    exact h2
  · rw [pyNotPos_eq_not_posOpt] at h3
    simp only [Bool.and_eq_true, Bool.or_eq_true, beq_iff_eq, Bool.not_eq_true'] at h3
    simp only [reduceCtorEq, false_iff, not_not]
    right; right; left
    exact h3
  · simp only [Bool.and_eq_true, bne_iff_ne, ne_eq, decide_eq_true_eq] at h4
    simp only [reduceCtorEq, false_iff, not_not]
    right; right; right
    exact h4.2
  · simp only [beq_iff_eq, Bool.or_eq_true, decide_eq_true_eq, not_or] at h1
    rw [pyNotPos_eq_not_posOpt] at h2 h3
    simp only [Bool.and_eq_true, Bool.or_eq_true, beq_iff_eq, Bool.not_eq_true',
      not_and, not_or] at h2 h3
    simp only [Bool.and_eq_true, bne_iff_ne, ne_eq, decide_eq_true_eq, not_and] at h4
    simp only [true_iff, not_or]
    refine ⟨by omega, ?_, ?_, ?_⟩
    · intro hc
      rcases hc with ⟨ht, hp⟩
      rcases h2 ht with hne
      simp [hp] at hne
    · intro hc
      rcases hc with ⟨ht, hp⟩
      rcases h3 ht with hne
      simp [hp] at hne
    · intro hlt
      by_cases hz : od.disclosedQuantity = 0
      · omega
      · exact absurd hlt (h4 hz)

/-- C5: `place_order` raises a ValidationError strictly before any network
call whenever a local instruction invariant is violated (quantity not
greater than 0; order kind LMT or SL without a positive price; order kind
SLM or SL without a positive trigger price; disclosed quantity greater than
quantity), and issues exactly the one upstream call when all invariants
hold. -/
theorem claim_C5_local_validation_before_network (env : GatewayEnv) (od : OrderCreate)
    (clientCode : String) :
    (orderViolation od →
      ∃ e, placeOrder env od clientCode = (Except.error e, [])) ∧
    (¬ orderViolation od →
      (placeOrder env od clientCode).2 = [Effect.upstreamPlaceOrder clientCode]) := by
  constructor
  · intro hv
    have hne : validateOrderDetails od ≠ Except.ok () := by
      intro h
      exact (validateOrderDetails_ok_iff od).mp h hv
    cases hval : validateOrderDetails od with
    | error e =>
      refine ⟨e, ?_⟩
      simp [placeOrder, hval]
    | ok u =>
      cases u
      exact absurd hval hne
  · intro hv
    have hok : validateOrderDetails od = Except.ok () := (validateOrderDetails_ok_iff od).mpr hv
    simp only [placeOrder, hok]
    split
    · rfl
    · split <;> rfl

/-- Witness for C5: a violating order is rejected with no trace; a valid
market order issues exactly one upstream call. -/
theorem claim_C5_witness :
    let env : GatewayEnv :=
      { placeResp := fun _ =>
          { statusCode := 200, status := some "success", message := none,
            data := JsonData.dict [("uniqueorderid", "OID1")], rootFields := [] } }
    let odBad : OrderCreate :=
      { clientId := 1, tokenId := 22, orderType := "MKT", transactionType := "BUY",
        productType := "MIS", quantity := 0, price := none, triggerPrice := none,
        disclosedQuantity := 0, exchange := "NSE", validity := "DAY", remarks := none }
    let odGood : OrderCreate :=
      { clientId := 1, tokenId := 22, orderType := "MKT", transactionType := "BUY",
        productType := "MIS", quantity := 5, price := none, triggerPrice := none,
        disclosedQuantity := 0, exchange := "NSE", validity := "DAY", remarks := none }
    (orderViolation odBad ∧ ∃ e, placeOrder env odBad "C1" = (Except.error e, [])) ∧
    (¬ orderViolation odGood ∧
      (placeOrder env odGood "C1").2 = [Effect.upstreamPlaceOrder "C1"]) :=
  ⟨⟨by decide, (claim_C5_local_validation_before_network _ _ "C1").1 (by decide)⟩,
   ⟨by decide, (claim_C5_local_validation_before_network _ _ "C1").2 (by decide)⟩⟩

/-! ## Batch execution engine (`app/api/orders.py`) -/

/-- Python `a or b` where `a` is an optional string and `b` a string. -/
def pyOrStr (a : Option String) (b : String) : String :=
  match a with
  | some s => if s.isEmpty then b else s
  | none => b

/-- All four encrypted columns of a segment are present and non-empty. -/
def credSetComplete (cs : CredSet) : Bool :=
  pyTruthyStr cs.apiKey && pyTruthyStr cs.secretKey &&
    pyTruthyStr cs.userId && pyTruthyStr cs.password

/-- Embeds the `ClientOrder` request schema (pydantic field constraints such
as `quantity > 0` are deliberately not baked into the type: the embedding
gives the semantics of the endpoint function body on arbitrary values). -/
structure ClientOrder where
  clientId : Int
  quantity : Int
  price : Option ℚ
  remarks : Option String
deriving Repr, DecidableEq

/-- Embeds the `BatchOrderRequest` schema. -/
structure BatchOrderRequest where
  tokenId : String
  symbol : String
  exchange : String
  orderType : String
  transactionType : String
  productType : String
  defaultPrice : Option ℚ
  triggerPrice : Option ℚ
  segment : String
  validity : String
  clientOrders : List ClientOrder
  dryRun : Bool
  maxConcurrent : Nat
deriving Repr, DecidableEq

/-- Embeds `OrderExecutionResult`.  Wall-clock timing is not modelled, so
`execution_time_ms` is always 0 here. -/
structure OrderExecutionResult where
  clientId : Int
  clientCode : String
  quantity : Int
  price : Option ℚ
  success : Bool
  orderId : Option String
  errorMessage : Option String
  executionTimeMs : Nat
deriving Repr, DecidableEq

/-- An `HTTPException` raised by the endpoint. -/
structure BatchError where
  statusCode : Nat
  detail : String
deriving Repr, DecidableEq

/-- The `summary` dict of the batch response (the float `success_rate` is
derived from these counts and not modelled separately). -/
structure BatchSummary where
  totalOrders : Nat
  successfulOrders : Nat
  failedOrders : Nat
  totalQuantity : Int
  symbol : String
  transactionType : String
  orderType : String
deriving Repr, DecidableEq

/-- Embeds `BatchOrderResponse` (the `execution_metadata` timing dict is not
modelled). -/
structure BatchOrderResponse where
  success : Bool
  message : String
  summary : BatchSummary
  results : List OrderExecutionResult
deriving Repr, DecidableEq

/-- The external world of the batch engine: the client table, the broker
gateway, and, for each task position, an optional exception escaping the
isolation wrapper (as delivered by `asyncio.gather(..., return_exceptions=True)`,
e.g. a cancellation raised outside the `try` of `execute_single_order`). -/
structure World where
  clients : List Client
  gateway : GatewayEnv
  taskInjection : Nat → Option String

/-- Embeds `get_client_with_validation`: the client must exist, be active,
and hold the requested segment's credentials. -/
def getClientWithValidation (w : World) (clientId : Int) (segment : String) :
    Except String Client :=
  match w.clients.find? (fun c => c.id == clientId) with
  | none => Except.error ("Client with ID " ++ toString clientId ++ " not found")
  | some c =>
    if !c.isActive then
      Except.error ("Client " ++ c.clientCode ++ " is inactive")
    else if segment == "interactive" && !credSetComplete c.interactive then
      Except.error ("Client " ++ c.clientCode ++ " does not have interactive credentials")
    else if segment == "commodity" && !credSetComplete c.commodity then
      Except.error ("Client " ++ c.clientCode ++ " does not have commodity credentials")
    else
      Except.ok c

/-- Embeds `create_order_from_request`. -/
def createOrderFromRequest (req : BatchOrderRequest) (co : ClientOrder) (tokenId : Int) :
    OrderCreate :=
  { clientId := co.clientId, tokenId := tokenId, orderType := req.orderType,
    transactionType := req.transactionType, productType := req.productType,
    quantity := co.quantity, price := pyOrRat co.price req.defaultPrice,
    triggerPrice := req.triggerPrice, disclosedQuantity := 0,
    exchange := req.exchange, validity := req.validity,
    remarks := some (pyOrStr co.remarks ("Batch order - " ++ req.symbol)) }

/-- The `try` body of `execute_single_order`: validate the client, build the
order, and either short-circuit in dry-run mode or place the order upstream.
(The local order-record insert after a successful placement is persistence
plumbing and not modelled.) -/
def executeSingleOrderBody (w : World) (co : ClientOrder) (req : BatchOrderRequest)
    (tokenId : Int) : Except String OrderExecutionResult := do
  let client ← getClientWithValidation w co.clientId req.segment
  let orderCreate := createOrderFromRequest req co tokenId
  if req.dryRun then
    pure { clientId := co.clientId, clientCode := client.clientCode,
           quantity := co.quantity, price := pyOrRat co.price req.defaultPrice,
           success := true, orderId := some "DRY_RUN", errorMessage := none,
           executionTimeMs := 0 }
  else
    match (placeOrder w.gateway orderCreate client.clientCode).1 with
    | Except.error e => Except.error e
    | Except.ok oid =>
      pure { clientId := co.clientId, clientCode := client.clientCode,
             quantity := co.quantity, price := pyOrRat co.price req.defaultPrice,
             success := true, orderId := some oid, errorMessage := none,
             executionTimeMs := 0 }

/-- The failed-outcome record built both by the `except` branch of
`execute_single_order` and by the exception-conversion loop of
`execute_batch_orders` (they differ only in the measured wall-clock time,
which is not modelled). -/
def failedOutcomeFor (req : BatchOrderRequest) (co : ClientOrder) (msg : String) :
    OrderExecutionResult :=
  { clientId := co.clientId, clientCode := "CLIENT_" ++ toString co.clientId,
    quantity := co.quantity, price := pyOrRat co.price req.defaultPrice,
    success := false, orderId := none, errorMessage := some msg,
    executionTimeMs := 0 }

/-- Embeds `execute_single_order` with its catch-all `except`: every raised
error is converted into a failed `OrderExecutionResult` carrying the error
text. -/
def executeSingleOrder (w : World) (co : ClientOrder) (req : BatchOrderRequest)
    (tokenId : Int) : OrderExecutionResult :=
  match executeSingleOrderBody w co req tokenId with
  | Except.ok r => r
  | Except.error e => failedOutcomeFor req co e

/-- One entry of the list returned by `asyncio.gather(..., return_exceptions=True)`:
either an exception escaping the task (injected by the world at this
position) or the outcome of `execute_single_order`. -/
def gatherEntry (w : World) (req : BatchOrderRequest) (tokenId : Int) (idx : Nat)
    (co : ClientOrder) : Except String OrderExecutionResult :=
  match w.taskInjection idx with
  | some e => Except.error e
  | none => Except.ok (executeSingleOrder w co req tokenId)

/-- The full gathered list, in input order (gather preserves the order of
the task list regardless of completion order). -/
def gatherRaw (w : World) (req : BatchOrderRequest) (tokenId : Int) :
    Nat → List ClientOrder → List (Except String OrderExecutionResult)
  | _, [] => []
  | i, co :: rest => gatherEntry w req tokenId i co :: gatherRaw w req tokenId (i + 1) rest

/-- The conversion step of the `for i, result in enumerate(results)` loop:
an exception entry becomes a failed outcome for `valid_orders[i]`. -/
def convertGatherResult (req : BatchOrderRequest) (co : ClientOrder) :
    Except String OrderExecutionResult → OrderExecutionResult
  | Except.ok r => r
  | Except.error e => failedOutcomeFor req co e

/-- Positional conversion of the whole gathered list. -/
def convertAll (req : BatchOrderRequest) :
    List ClientOrder → List (Except String OrderExecutionResult) → List OrderExecutionResult
  | co :: cs, r :: rs => convertGatherResult req co r :: convertAll req cs rs
  | _, _ => []

/-- The batch-level price precondition of `execute_batch_orders`. -/
def batchMissingPrice (req : BatchOrderRequest) : Bool :=
  (req.orderType == "LMT" || req.orderType == "SL") && !pyTruthyRat req.defaultPrice
    && !(req.clientOrders.any (fun co => pyTruthyRat co.price))

/-- The batch-level trigger-price precondition of `execute_batch_orders`. -/
def batchMissingTrigger (req : BatchOrderRequest) : Bool :=
  (req.orderType == "SLM" || req.orderType == "SL") && !pyTruthyRat req.triggerPrice

/-- `valid_orders`: instructions with positive quantity. -/
def validOrdersOf (req : BatchOrderRequest) : List ClientOrder :=
  req.clientOrders.filter (fun co => decide (0 < co.quantity))

/-- The successful tail of `execute_batch_orders`: gather, convert, and
assemble the summary (the `token_id` placeholder of the source is the
constant 1). -/
def buildBatchResponse (w : World) (req : BatchOrderRequest) : BatchOrderResponse :=
  let validOrders := validOrdersOf req
  let tokenId : Int := 1
  let raw := gatherRaw w req tokenId 0 validOrders
  let executionResults := convertAll req validOrders raw
  let successfulCount := (executionResults.filter (fun r => r.success)).length
  let failedCount := (executionResults.filter (fun r => !r.success)).length
  let totalQuantity :=
    ((executionResults.filter (fun r => r.success)).map (fun r => r.quantity)).sum
  { success := decide (0 < successfulCount),
    message := "Batch execution completed: " ++ toString successfulCount ++ "/"
      ++ toString validOrders.length ++ " orders successful",
    summary := { totalOrders := validOrders.length, successfulOrders := successfulCount,
                 failedOrders := failedCount, totalQuantity := totalQuantity,
                 symbol := req.symbol, transactionType := req.transactionType,
                 orderType := req.orderType },
    results := executionResults }

/-- Embeds `execute_batch_orders`: eager batch-level precondition checks
(each a hard `HTTPException`), quantity filtering, then the concurrent
execution and summary tail. -/
def executeBatchOrders (w : World) (req : BatchOrderRequest) :
    Except BatchError BatchOrderResponse :=
  if batchMissingPrice req then
    Except.error { statusCode := 400, detail := "Price is required for limit orders" }
  else if batchMissingTrigger req then
    Except.error { statusCode := 400, detail := "Trigger price is required for stop-loss orders" }
  else if (validOrdersOf req).isEmpty then
    Except.error { statusCode := 400, detail := "No valid orders with quantity > 0" }
  else
    Except.ok (buildBatchResponse w req)

lemma gatherRaw_length (w : World) (req : BatchOrderRequest) (tokenId : Int) :
    ∀ (l : List ClientOrder) (i : Nat), (gatherRaw w req tokenId i l).length = l.length := by
  intro l
  induction l with
  | nil => intro i; rfl
  | cons hd tl ih => intro i; simp [gatherRaw, ih]

lemma convertAll_gatherRaw_length (w : World) (req : BatchOrderRequest) (tokenId : Int) :
    ∀ (l : List ClientOrder) (i : Nat),
      (convertAll req l (gatherRaw w req tokenId i l)).length = l.length := by
  intro l
  induction l with
  | nil => intro i; rfl
  | cons hd tl ih => intro i; simp [gatherRaw, convertAll, ih]

lemma convertAll_gatherRaw_getElem (w : World) (req : BatchOrderRequest) (tokenId : Int) :
    ∀ (l : List ClientOrder) (i0 i : Nat) (co : ClientOrder), l[i]? = some co →
      (convertAll req l (gatherRaw w req tokenId i0 l))[i]?
        = some (convertGatherResult req co (gatherEntry w req tokenId (i0 + i) co)) := by
  intro l
  induction l with
  | nil => intro i0 i co h; simp at h
  | cons hd tl ih =>
    intro i0 i co h
    cases i with
    | zero =>
      simp only [List.getElem?_cons_zero, Option.some.injEq] at h
      subst h
      simp [gatherRaw, convertAll]
    | succ n =>
      simp only [List.getElem?_cons_succ] at h
      have hrec := ih (i0 + 1) n co h
      have harith : i0 + 1 + n = i0 + (n + 1) := by omega
      rw [harith] at hrec
      simp only [gatherRaw, convertAll, List.getElem?_cons_succ]
      exact hrec

/-- C2: per-instruction failures never propagate out of the batch call.  The
batch only fails on the three batch-level precondition violations; on
success the result list is positionally complete (one outcome per valid
instruction), and any instruction whose execution raised — whether inside
`execute_single_order` (inactive client, missing credentials, upstream
rejection) or escaping the isolation wrapper — shows up at its position as a
failed outcome carrying the error text. -/
theorem claim_C2_instruction_failure_isolation (w : World) (req : BatchOrderRequest) :
    (∀ e, executeBatchOrders w req = Except.error e →
      e = { statusCode := 400, detail := "Price is required for limit orders" } ∨
      e = { statusCode := 400, detail := "Trigger price is required for stop-loss orders" } ∨
      e = { statusCode := 400, detail := "No valid orders with quantity > 0" }) ∧
    (∀ resp, executeBatchOrders w req = Except.ok resp →
      resp.results.length = (validOrdersOf req).length ∧
      ∀ i co, (validOrdersOf req)[i]? = some co →
        resp.results[i]? = some (convertGatherResult req co (gatherEntry w req 1 i co)) ∧
        (∀ msg, gatherEntry w req 1 i co = Except.error msg →
          convertGatherResult req co (gatherEntry w req 1 i co) = failedOutcomeFor req co msg) ∧
        (∀ msg, w.taskInjection i = none →
          executeSingleOrderBody w co req 1 = Except.error msg →
          convertGatherResult req co (gatherEntry w req 1 i co) = failedOutcomeFor req co msg)) := by
  constructor
  · intro e he
    unfold executeBatchOrders at he
    split_ifs at he with h1 h2 h3
    · left; cases he; rfl
    · right; left; cases he; rfl
    · right; right; cases he; rfl
  · intro resp hr
    unfold executeBatchOrders at hr
    split_ifs at hr with h1 h2 h3
    cases hr
    have hres : (buildBatchResponse w req).results
        = convertAll req (validOrdersOf req)
            (gatherRaw w req 1 0 (validOrdersOf req)) := rfl
    rw [hres]
    refine ⟨convertAll_gatherRaw_length w req 1 _ 0, ?_⟩
    intro i co hco
    have hpos := convertAll_gatherRaw_getElem w req 1 (validOrdersOf req) 0 i co hco
    rw [Nat.zero_add] at hpos
    refine ⟨hpos, ?_, ?_⟩
    · intro msg hmsg
      rw [hmsg]
      rfl
    · intro msg hinj hbody
      simp [gatherEntry, hinj, convertGatherResult, executeSingleOrder, hbody]

/-- Concrete world and request used by the C2 witness: no clients exist and
the gather layer delivers an escaped exception at position 0. -/
def batchWitnessWorld : World :=
  { clients := [],
    gateway := { placeResp := fun _ =>
      { statusCode := 500, status := none, message := none,
        data := JsonData.absent, rootFields := [] } },
    taskInjection := fun _ => some "task cancelled" }

def batchWitnessOrder : ClientOrder :=
  { clientId := 3, quantity := 10, price := none, remarks := none }

def batchWitnessReq : BatchOrderRequest :=
  { tokenId := "22", symbol := "RELIANCE", exchange := "NSE", orderType := "MKT",
    transactionType := "BUY", productType := "MIS", defaultPrice := none,
    triggerPrice := none, segment := "interactive", validity := "DAY",
    clientOrders := [batchWitnessOrder], dryRun := false, maxConcurrent := 5 }

/-- The successful batch response of the witness run, recovered from the
computation itself. -/
def batchWitnessResp : BatchOrderResponse :=
  (executeBatchOrders batchWitnessWorld batchWitnessReq).toOption.getD
    { success := false, message := "",
      summary := { totalOrders := 0, successfulOrders := 0, failedOrders := 0,
                   totalQuantity := 0, symbol := "", transactionType := "", orderType := "" },
      results := [] }

/-- Witness for C2: the batch call returns a structured result even though
its only instruction's task raised, and position 0 carries the failed
outcome with the error text. -/
theorem claim_C2_witness :
    batchWitnessResp.results.length = (validOrdersOf batchWitnessReq).length ∧
    batchWitnessResp.results[0]?
      = some (failedOutcomeFor batchWitnessReq batchWitnessOrder "task cancelled") := by
  have h := (claim_C2_instruction_failure_isolation batchWitnessWorld batchWitnessReq).2
    batchWitnessResp (by rfl)
  obtain ⟨hlen, hpos⟩ := h
  obtain ⟨heq, hfall, _⟩ := hpos 0 batchWitnessOrder (by rfl)
  refine ⟨hlen, ?_⟩
  rw [heq, hfall "task cancelled" (by rfl)]

/-- Counterexample for C3: a batch whose only instruction has quantity 0
filters to an empty list, and `execute_batch_orders` raises a hard
`HTTPException` 400 — it does not return a zero-processed result. -/
theorem claim_C3_counterexample :
    executeBatchOrders batchWitnessWorld
      { tokenId := "22", symbol := "RELIANCE", exchange := "NSE", orderType := "MKT",
        transactionType := "BUY", productType := "MIS", defaultPrice := none,
        triggerPrice := none, segment := "interactive", validity := "DAY",
        clientOrders := [{ clientId := 3, quantity := 0, price := none, remarks := none }],
        dryRun := false, maxConcurrent := 5 }
      = Except.error { statusCode := 400, detail := "No valid orders with quantity > 0" } := by
  rfl

/-- C3 (amended): when the earlier batch-level preconditions pass and the
quantity filter leaves no instruction, `execute_batch_orders` fails hard
with HTTP 400 "No valid orders with quantity > 0" (it does not return a
zero-processed success). -/
theorem claim_C3_empty_filtered_is_hard_failure (w : World) (req : BatchOrderRequest)
    (hp : batchMissingPrice req = false) (ht : batchMissingTrigger req = false)
    (he : validOrdersOf req = []) :
    executeBatchOrders w req
      = Except.error { statusCode := 400, detail := "No valid orders with quantity > 0" } := by
  unfold executeBatchOrders
  simp [hp, ht, he]

/-- Witness for the amended C3 at a concrete request. -/
theorem claim_C3_witness :
    batchMissingPrice
        { tokenId := "9", symbol := "TCS", exchange := "NSE", orderType := "MKT",
          transactionType := "SELL", productType := "MIS", defaultPrice := none,
          triggerPrice := none, segment := "interactive", validity := "DAY",
          clientOrders := [{ clientId := 1, quantity := -2, price := none, remarks := none }],
          dryRun := true, maxConcurrent := 1 } = false ∧
    executeBatchOrders batchWitnessWorld
        { tokenId := "9", symbol := "TCS", exchange := "NSE", orderType := "MKT",
          transactionType := "SELL", productType := "MIS", defaultPrice := none,
          triggerPrice := none, segment := "interactive", validity := "DAY",
          clientOrders := [{ clientId := 1, quantity := -2, price := none, remarks := none }],
          dryRun := true, maxConcurrent := 1 }
      = Except.error { statusCode := 400, detail := "No valid orders with quantity > 0" } :=
  ⟨by rfl,
   claim_C3_empty_filtered_is_hard_failure batchWitnessWorld _ (by rfl) (by rfl) (by rfl)⟩

/-! ## Exit flow (`exit_all_positions` / `execute_client_exit`) -/

/-- One fetched position row (the fields the exit flow reads):
`int(pos.get('quantity', 0))` and `pos.get('product_type', 'MIS')`. -/
structure Position where
  quantity : Int
  productType : Option String
deriving Repr, DecidableEq

/-- Embeds the `ExitOrderRequest` schema. -/
structure ExitOrderRequest where
  tokenMofslId : String
  exchange : String
  orderType : String
  price : Option ℚ
  segment : String
  clientFilter : Option (List Int)
  minQuantity : Int
  dryRun : Bool
deriving Repr, DecidableEq

/-- The position filter of `exit_all_positions` (lines 493-495):
`abs(int(pos.get('quantity', 0))) >= request.min_quantity`. -/
def filterExitPositions (positions : List Position) (minQuantity : Int) : List Position :=
  positions.filter (fun p => decide (minQuantity ≤ |p.quantity|))

/-- The opposite-side exit order built inside `execute_client_exit`
(lines 540-560): SELL for a positive net quantity, BUY for a negative one,
always for the absolute quantity. -/
def synthExitOrder (req : ExitOrderRequest) (clientId : Int) (p : Position) : OrderCreate :=
  { clientId := clientId, tokenId := 1, orderType := req.orderType,
    transactionType := if 0 < p.quantity then "SELL" else "BUY",
    productType := p.productType.getD "MIS",
    quantity := |p.quantity|, price := req.price, triggerPrice := none,
    disclosedQuantity := 0, exchange := req.exchange, validity := "DAY",
    remarks := some ("Exit order for " ++ req.tokenMofslId) }

/-- The exit instructions actually synthesized for one client's positions on
the target token: the `min_quantity` filter of `exit_all_positions` composed
with the per-position loop of `execute_client_exit`, which skips
zero-quantity positions and, in dry-run mode, creates no order. -/
def exitOrdersForClient (req : ExitOrderRequest) (clientId : Int)
    (positions : List Position) : List OrderCreate :=
  (filterExitPositions positions req.minQuantity).filterMap (fun p =>
    if p.quantity == 0 then none
    else if req.dryRun then none
    else some (synthExitOrder req clientId p))

/-- The exit set as worded by the specification: one opposite-side
(side, quantity) pair per position with non-zero net quantity of absolute
value at least `min_quantity`; positive quantity q exits via SELL q,
negative quantity -q via BUY q. -/
def exitSetSpec (minQuantity : Int) (positions : List Position) : List (String × Int) :=
  positions.filterMap (fun p =>
    if p.quantity ≠ 0 ∧ minQuantity ≤ |p.quantity| then
      some ((if 0 < p.quantity then "SELL" else "BUY"), |p.quantity|)
    else none)

/-- C6: outside dry-run mode, the sides and quantities of the synthesized
exit instructions are exactly those the specification describes: an
instruction is produced for a position iff its net quantity is non-zero and
its absolute value is at least `min_quantity`; the side is SELL for positive
and BUY for negative net quantity, and the quantity is the absolute value. -/
theorem claim_C6_exit_side_synthesis (req : ExitOrderRequest) (clientId : Int)
    (positions : List Position) (hdry : req.dryRun = false) :
    (exitOrdersForClient req clientId positions).map
        (fun o => (o.transactionType, o.quantity))
      = exitSetSpec req.minQuantity positions := by
  unfold exitOrdersForClient exitSetSpec filterExitPositions
  rw [List.map_filterMap, List.filterMap_filter]
  apply List.filterMap_congr
  intro p _
  by_cases habs : req.minQuantity ≤ |p.quantity| <;>
    by_cases hz : p.quantity = 0 <;>
      simp [habs, hz, hdry, synthExitOrder]

/-- Witness for C6 at a concrete exit request and position list, covering a
long position, a short position, a flat position and a too-small one. -/
theorem claim_C6_witness :
    ({ tokenMofslId := "T1", exchange := "NSE", orderType := "MKT", price := none,
       segment := "interactive", clientFilter := none, minQuantity := 5,
       dryRun := false } : ExitOrderRequest).dryRun = false ∧
    (exitOrdersForClient
        { tokenMofslId := "T1", exchange := "NSE", orderType := "MKT", price := none,
          segment := "interactive", clientFilter := none, minQuantity := 5,
          dryRun := false } 9
        [{ quantity := 50, productType := some "MIS" },
         { quantity := -30, productType := none },
         { quantity := 0, productType := none },
         { quantity := 3, productType := none }]).map
        (fun o => (o.transactionType, o.quantity))
      = exitSetSpec 5
          [{ quantity := 50, productType := some "MIS" },
           { quantity := -30, productType := none },
           { quantity := 0, productType := none },
           { quantity := 3, productType := none }] :=
  ⟨rfl, claim_C6_exit_side_synthesis _ 9 _ (by rfl)⟩

/-! ## Instrument search (`app/api/tokens.py`: `filter_instruments` / `search_tokens`) -/

/-- Python `s.lower()` on the characters of a string. -/
def lowerChars (s : String) : List Char :=
  s.toList.map Char.toLower

/-- Python `startswith` at the character level. -/
def listPrefixOf : List Char → List Char → Bool
  | [], _ => true
  | _ :: _, [] => false
  | a :: as, b :: bs => a == b && listPrefixOf as bs

/-- Python `needle in haystack` (substring containment) at the character
level. -/
def listInfixOf (needle : List Char) : List Char → Bool
  | [] => needle.isEmpty
  | b :: bs => listPrefixOf needle (b :: bs) || listInfixOf needle bs

/-- An instrument record: the three fields `filter_instruments` reads. -/
structure Instrument where
  symbol : String
  name : String
  token : String
deriving Repr, DecidableEq

/-- The match test of `filter_instruments`: case-insensitive substring match
on symbol, name or token, or prefix match on symbol. -/
def instrMatches (ql : List Char) (i : Instrument) : Bool :=
  listInfixOf ql (lowerChars i.symbol) || listInfixOf ql (lowerChars i.name) ||
    listInfixOf ql (lowerChars i.token) || listPrefixOf ql (lowerChars i.symbol)

/-- The `sort_key` of `filter_instruments`: 0 for an exact symbol match, 1
for a symbol-prefix match, 2 otherwise. -/
def sortKeyOf (ql : List Char) (i : Instrument) : Nat :=
  if lowerChars i.symbol == ql then 0
  else if listPrefixOf ql (lowerChars i.symbol) then 1
  else 2

/-- The `filtered` list of `filter_instruments`. -/
def filteredInstruments (instruments : List Instrument) (ql : List Char) : List Instrument :=
  instruments.filter (fun i => instrMatches ql i)

/-- `filtered.sort(key=sort_key)`: Python `list.sort` is stable, and a
stable sort by a key valued in the set 0, 1, 2 yields exactly the
concatenation of the three key classes, each in original (catalog) order. -/
def sortedFilteredInstruments (instruments : List Instrument) (ql : List Char) : List Instrument :=
  (filteredInstruments instruments ql).filter (fun i => sortKeyOf ql i == 0) ++
    (filteredInstruments instruments ql).filter (fun i => sortKeyOf ql i == 1) ++
    (filteredInstruments instruments ql).filter (fun i => sortKeyOf ql i == 2)

/-- Embeds `filter_instruments`: queries shorter than 2 characters
short-circuit to the first 100 catalog entries; otherwise filter, sort by
relevance, and truncate to 50. -/
def filterInstruments (instruments : List Instrument) (q : String) : List Instrument :=
  if q.length < 2 then instruments.take 100
  else (sortedFilteredInstruments instruments (lowerChars q)).take 50

/-- Embeds the result assembly of `search_tokens`: the filtered list is
additionally capped at the caller-supplied `limit`. -/
def searchTokensResults (instruments : List Instrument) (q : String) (limit : Nat) :
    List Instrument :=
  (filterInstruments instruments q).take limit

lemma sortKeyOf_le_two (ql : List Char) (i : Instrument) : sortKeyOf ql i ≤ 2 := by
  unfold sortKeyOf
  split_ifs <;> omega

lemma sortKeyOf_of_mem_class (ql : List Char) (t : Nat) (l : List Instrument) (i : Instrument)
    (h : i ∈ l.filter (fun x => sortKeyOf ql x == t)) : sortKeyOf ql i = t := by
  have := (List.mem_filter.mp h).2
  simpa using this

lemma pairwise_sortedFilteredInstruments (instruments : List Instrument) (ql : List Char) :
    List.Pairwise (fun a b => sortKeyOf ql a ≤ sortKeyOf ql b)
      (sortedFilteredInstruments instruments ql) := by
  unfold sortedFilteredInstruments
  rw [List.append_assoc, List.pairwise_append, List.pairwise_append]
  refine ⟨?_, ⟨?_, ?_, ?_⟩, ?_⟩
  · apply List.pairwise_of_forall_mem_list
    intro a ha b hb
    rw [sortKeyOf_of_mem_class ql 0 _ a ha, sortKeyOf_of_mem_class ql 0 _ b hb]
  · apply List.pairwise_of_forall_mem_list
    intro a ha b hb
    rw [sortKeyOf_of_mem_class ql 1 _ a ha, sortKeyOf_of_mem_class ql 1 _ b hb]
  · apply List.pairwise_of_forall_mem_list
    intro a ha b hb
    rw [sortKeyOf_of_mem_class ql 2 _ a ha, sortKeyOf_of_mem_class ql 2 _ b hb]
  · intro a ha b hb
    rw [sortKeyOf_of_mem_class ql 1 _ a ha, sortKeyOf_of_mem_class ql 2 _ b hb]
    omega
  · intro a ha b hb
    rcases List.mem_append.mp hb with hb1 | hb2
    · rw [sortKeyOf_of_mem_class ql 0 _ a ha, sortKeyOf_of_mem_class ql 1 _ b hb1]
      omega
    · rw [sortKeyOf_of_mem_class ql 0 _ a ha, sortKeyOf_of_mem_class ql 2 _ b hb2]
      omega

lemma filter_sortKey_component (ql : List Char) (i t : Nat) (h : i ≠ t)
    (l : List Instrument) :
    (l.filter (fun x => sortKeyOf ql x == i)).filter (fun x => sortKeyOf ql x == t) = [] := by
  rw [List.filter_filter]
  apply List.filter_eq_nil_iff.mpr
  intro a _
  simp only [Bool.and_eq_true, beq_iff_eq, not_and]
  intro h1 h2
  exact h (h2 ▸ h1 ▸ rfl)

lemma sortedFiltered_filter_key_sublist (instruments : List Instrument) (ql : List Char)
    (t : Nat) :
    List.Sublist
      ((sortedFilteredInstruments instruments ql).filter (fun i => sortKeyOf ql i == t))
      instruments := by
  unfold sortedFilteredInstruments
  rw [List.filter_append, List.filter_append]
  have base : ∀ p : Instrument → Bool,
      List.Sublist ((filteredInstruments instruments ql).filter p) instruments := by
    intro p
    refine List.Sublist.trans (List.filter_sublist _) ?_
    exact List.filter_sublist _
  by_cases h0 : t = 0
  · subst h0
    rw [filter_sortKey_component ql 1 0 (by omega), filter_sortKey_component ql 2 0 (by omega)]
    simpa using base _
  · by_cases h1 : t = 1
    · subst h1
      rw [filter_sortKey_component ql 0 1 (by omega), filter_sortKey_component ql 2 1 (by omega)]
      simpa using base _
    · by_cases h2 : t = 2
      · subst h2
        rw [filter_sortKey_component ql 0 2 (by omega), filter_sortKey_component ql 1 2 (by omega)]
        simpa using base _
      · rw [filter_sortKey_component ql 0 t (by omega), filter_sortKey_component ql 1 t (by omega),
          filter_sortKey_component ql 2 t (by omega)]
        simp

/-- C8 (amended): for every search whose query has at least 2 characters,
the result list is ordered by relevance tier (exact symbol match, then
symbol-prefix match, then substring match), each tier preserving catalog
order (the tier-t elements of the result form a sublist of the catalog), and
the caller-supplied `limit` is a hard ceiling applied after sorting (the
result is a prefix of the sorted list of length at most `limit`).  Queries
shorter than 2 characters bypass filtering and sorting entirely, which is
what the counterexample exhibits. -/
theorem claim_C8_tiered_search_for_real_queries (instruments : List Instrument)
    (q : String) (limit : Nat) (hq : 2 ≤ q.length) :
    (searchTokensResults instruments q limit).length ≤ limit ∧
    List.IsPrefix (searchTokensResults instruments q limit)
      (sortedFilteredInstruments instruments (lowerChars q)) ∧
    List.Pairwise (fun a b => sortKeyOf (lowerChars q) a ≤ sortKeyOf (lowerChars q) b)
      (searchTokensResults instruments q limit) ∧
    (∀ t, List.Sublist
      ((searchTokensResults instruments q limit).filter
        (fun i => sortKeyOf (lowerChars q) i == t))
      instruments) := by
  have hnot : ¬ (q.length < 2) := by omega
  have hres : searchTokensResults instruments q limit
      = ((sortedFilteredInstruments instruments (lowerChars q)).take 50).take limit := by
    unfold searchTokensResults filterInstruments
    rw [if_neg hnot]
  have hsub : List.Sublist
      (((sortedFilteredInstruments instruments (lowerChars q)).take 50).take limit)
      (sortedFilteredInstruments instruments (lowerChars q)) :=
    List.Sublist.trans (List.take_sublist _ _) (List.take_sublist _ _)
  refine ⟨?_, ?_, ?_, ?_⟩
  · rw [hres]
    simp only [List.length_take]
    omega
  · rw [hres, List.take_take]
    exact List.take_prefix _ _
  · rw [hres]
    exact (pairwise_sortedFilteredInstruments instruments (lowerChars q)).sublist hsub
  · intro t
    rw [hres]
    refine List.Sublist.trans (List.Sublist.filter _ hsub) ?_
    exact sortedFiltered_filter_key_sublist instruments (lowerChars q) t

/-- The two-instrument catalog of the counterexample: an exact symbol match
listed after a mere substring match. -/
def shortQueryCatalog : List Instrument :=
  [{ symbol := "XR", name := "", token := "" }, { symbol := "R", name := "", token := "" }]

/-- Counterexample for C8 as stated: for the one-character query "R" the
code skips filtering and tiering, so the exact symbol match "R" (tier 0) is
returned after "XR" (tier 2) — the result is not ordered by relevance
tier. -/
theorem claim_C8_counterexample :
    searchTokensResults shortQueryCatalog "R" 10
      = [{ symbol := "XR", name := "", token := "" },
         { symbol := "R", name := "", token := "" }] ∧
    sortKeyOf (lowerChars "R") { symbol := "XR", name := "", token := "" } = 2 ∧
    sortKeyOf (lowerChars "R") { symbol := "R", name := "", token := "" } = 0 ∧
    ¬ List.Pairwise (fun a b => sortKeyOf (lowerChars "R") a ≤ sortKeyOf (lowerChars "R") b)
        (searchTokensResults shortQueryCatalog "R" 10) :=
  ⟨by decide, by decide, by decide, by decide⟩

/-- Witness for the amended C8 at a concrete catalog, query and limit. -/
theorem claim_C8_witness :
    2 ≤ ("re" : String).length ∧
    (searchTokensResults shortQueryCatalog "re" 1).length ≤ 1 ∧
    List.IsPrefix (searchTokensResults shortQueryCatalog "re" 1)
      (sortedFilteredInstruments shortQueryCatalog (lowerChars "re")) ∧
    List.Pairwise (fun a b => sortKeyOf (lowerChars "re") a ≤ sortKeyOf (lowerChars "re") b)
      (searchTokensResults shortQueryCatalog "re" 1) ∧
    List.Sublist
      ((searchTokensResults shortQueryCatalog "re" 1).filter
        (fun i => sortKeyOf (lowerChars "re") i == 0))
      shortQueryCatalog :=
  ⟨by decide,
   (claim_C8_tiered_search_for_real_queries shortQueryCatalog "re" 1 (by decide)).1,
   (claim_C8_tiered_search_for_real_queries shortQueryCatalog "re" 1 (by decide)).2.1,
   (claim_C8_tiered_search_for_real_queries shortQueryCatalog "re" 1 (by decide)).2.2.1,
   (claim_C8_tiered_search_for_real_queries shortQueryCatalog "re" 1 (by decide)).2.2.2 0⟩

/-! ## Concurrency bound of the batch engine

`execute_batch_orders` wraps every instruction task in
`async with semaphore` where `semaphore = asyncio.Semaphore(request.max_concurrent)`:
a task acquires a permit before `execute_single_order` (and hence before its
upstream call) and releases it when the call returns.  The cooperative
scheduler is modelled as a small-step transition system over the semaphore
counter and the per-task status. -/

/-- Status of one instruction task: not yet admitted, inside the
`async with semaphore` block (holding a permit, i.e. eligible to be awaiting
the upstream response), or finished. -/
inductive TaskStatus where
  | pending
  | running
  | finished
deriving Repr, DecidableEq

/-- Scheduler state: free permits of the admission semaphore plus one status
per instruction. -/
structure SemState where
  permits : Nat
  tasks : List TaskStatus
deriving Repr, DecidableEq

/-- The two scheduler transitions of the semaphore discipline: a pending
task is admitted only when a permit is free (`acquire`), and an admitted
task gives its permit back when it completes (`release`). -/
inductive SemStep : SemState → SemState → Prop where
  | acquire (s : SemState) (i : Nat)
      (h : s.tasks[i]? = some TaskStatus.pending) (hp : 0 < s.permits) :
      SemStep s { permits := s.permits - 1, tasks := s.tasks.set i TaskStatus.running }
  | release (s : SemState) (i : Nat)
      (h : s.tasks[i]? = some TaskStatus.running) :
      SemStep s { permits := s.permits + 1, tasks := s.tasks.set i TaskStatus.finished }

/-- The initial state of a batch with `n` instructions and
`max_concurrent = k`: the semaphore holds `k` permits and every task is
pending. -/
def initSemState (k n : Nat) : SemState :=
  { permits := k, tasks := List.replicate n TaskStatus.pending }

/-- States reachable by the scheduler from the initial batch state. -/
inductive SemReachable (k n : Nat) : SemState → Prop where
  | init : SemReachable k n (initSemState k n)
  | step (s s' : SemState) : SemReachable k n s → SemStep s s' → SemReachable k n s'

/-- The number of tasks currently inside the semaphore block. -/
def runningCount (s : SemState) : Nat :=
  s.tasks.countP (fun t => t == TaskStatus.running)

lemma countP_set_of_getElem (p : TaskStatus → Bool) :
    ∀ (l : List TaskStatus) (i : Nat) (a b : TaskStatus), l[i]? = some a →
      (l.set i b).countP p + (if p a then 1 else 0)
        = l.countP p + (if p b then 1 else 0) := by
  intro l
  induction l with
  | nil => intro i a b h; simp at h
  | cons hd tl ih =>
    intro i a b h
    cases i with
    | zero =>
      simp only [List.getElem?_cons_zero, Option.some.injEq] at h
      subst h
      simp only [List.set_cons_zero, List.countP_cons]
      omega
    | succ n =>
      simp only [List.getElem?_cons_succ] at h
      have := ih n a b h
      simp only [List.set_cons_succ, List.countP_cons]
      omega

lemma semReachable_invariant (k n : Nat) (s : SemState) (h : SemReachable k n s) :
    runningCount s + s.permits = k := by
  induction h with
  | init =>
    have hzero : runningCount (initSemState k n) = 0 := by
      unfold runningCount initSemState
      simp only [List.countP_eq_zero]
      intro a ha
      have := List.eq_of_mem_replicate ha
      subst this
      simp
    rw [hzero]
    simp [initSemState]
  | step s s' _ hst ih =>
    cases hst with
    | acquire i hi hp =>
      have hc := countP_set_of_getElem (fun t => t == TaskStatus.running)
        s.tasks i TaskStatus.pending TaskStatus.running hi
      simp only [runningCount] at *
      simp at hc
      omega
    | release i hi =>
      have hc := countP_set_of_getElem (fun t => t == TaskStatus.running)
        s.tasks i TaskStatus.running TaskStatus.finished hi
      simp only [runningCount] at *
      simp at hc
      omega

/-- C9: in every scheduler state reachable during a batch with concurrency
bound `max_concurrent = k`, at most `k` tasks are inside the semaphore block
at once — so at no point are more than `k` instructions concurrently
awaiting an upstream response; the remaining tasks stay pending until a
permit frees up. -/
theorem claim_C9_semaphore_bounds_concurrency (k n : Nat) (s : SemState)
    (h : SemReachable k n s) : runningCount s ≤ k := by
  have := semReachable_invariant k n s h
  omega

/-- Witness for C9: a concrete reachable state (one acquire step from the
initial state of a batch of 3 with bound 2) satisfies the bound. -/
theorem claim_C9_witness :
    runningCount
      (SemState.mk 1 ((List.replicate 3 TaskStatus.pending).set 0 TaskStatus.running)) ≤ 2 :=
  claim_C9_semaphore_bounds_concurrency 2 3 _
    (SemReachable.step _ _ SemReachable.init
      (SemStep.acquire (initSemState 2 3) 0 (by decide) (by decide)))

/-! ## Credential crypto (`CredentialCrypto.encrypt_data` / `decrypt_data`)

The Fernet cipher, base64 codec and UTF-8 codec are library primitives
external to the repository; they are abstracted as functions over byte
strings (modelled as `List Char`) together with their documented round-trip
contracts, while the composition order and the empty-input no-op
short-circuits are embedded exactly as written in `security.py`. -/

/-- The external primitives `encrypt_data` / `decrypt_data` compose:
`self.fernet.encrypt` / `self.fernet.decrypt`, `base64.b64encode` /
`base64.b64decode`, and `str.encode('utf-8')` / `bytes.decode('utf-8')`. -/
structure CryptoPrims where
  fernetEncrypt : List Char → List Char
  fernetDecrypt : List Char → List Char
  b64encode : List Char → List Char
  b64decode : List Char → List Char
  utf8Encode : String → List Char
  utf8Decode : List Char → String

/-- Embeds `CredentialCrypto.encrypt_data`: empty input short-circuits to
the empty string; otherwise UTF-8 encode, Fernet-encrypt, base64-encode and
decode the base64 bytes back to a storage string. -/
def encrypt_data (P : CryptoPrims) (data : String) : String :=
  if data.isEmpty then ""
  else P.utf8Decode (P.b64encode (P.fernetEncrypt (P.utf8Encode data)))

/-- Embeds `CredentialCrypto.decrypt_data`: empty input short-circuits to
the empty string; otherwise UTF-8 encode the storage string, base64-decode,
Fernet-decrypt and decode the plaintext bytes. -/
def decrypt_data (P : CryptoPrims) (encryptedData : String) : String :=
  if encryptedData.isEmpty then ""
  else P.utf8Decode (P.fernetDecrypt (P.b64decode (P.utf8Encode encryptedData)))

/-- C10: under the documented contracts of the external primitives — Fernet
decryption inverts encryption under the same key, base64 decoding inverts
encoding, UTF-8 decoding inverts encoding, UTF-8 is the identity round-trip
on base64 text, and a non-empty plaintext yields a non-empty stored
ciphertext — decrypting the encryption of any string returns it exactly, and
the empty string round-trips to the empty string through the no-op
short-circuit in both directions. -/
theorem claim_C10_encrypt_decrypt_roundtrip (P : CryptoPrims)
    (hfernet : ∀ b, P.fernetDecrypt (P.fernetEncrypt b) = b)
    (hb64 : ∀ b, P.b64decode (P.b64encode b) = b)
    (hutf : ∀ s, P.utf8Decode (P.utf8Encode s) = s)
    (hutfb : ∀ b, P.utf8Encode (P.utf8Decode (P.b64encode b)) = P.b64encode b)
    (hne : ∀ s, ¬ s.isEmpty = true → ¬ (encrypt_data P s).isEmpty = true) :
    (∀ s, decrypt_data P (encrypt_data P s) = s) ∧
    encrypt_data P "" = "" ∧ decrypt_data P "" = "" := by
  refine ⟨?_, rfl, rfl⟩
  intro s
  by_cases hs : s.isEmpty = true
  · have : s = "" := (String.isEmpty_iff s).mp hs
    subst this
    rfl
  · have hcne := hne s hs
    unfold encrypt_data at hcne ⊢
    rw [if_neg hs] at hcne ⊢
    unfold decrypt_data
    rw [if_neg hcne, hutfb, hb64, hfernet, hutf]

/-- Witness for C10 with concrete primitives satisfying the contracts: a
length-increasing reversible stand-in for Fernet, the identity for base64,
and the character list itself for UTF-8. -/
theorem claim_C10_witness :
    (∀ s, decrypt_data
        { fernetEncrypt := fun b => 'F' :: b, fernetDecrypt := fun b => b.drop 1,
          b64encode := fun b => b, b64decode := fun b => b,
          utf8Encode := fun s => s.toList, utf8Decode := fun l => String.mk l }
        (encrypt_data
          { fernetEncrypt := fun b => 'F' :: b, fernetDecrypt := fun b => b.drop 1,
            b64encode := fun b => b, b64decode := fun b => b,
            utf8Encode := fun s => s.toList, utf8Decode := fun l => String.mk l } s) = s) ∧
    encrypt_data
        { fernetEncrypt := fun b => 'F' :: b, fernetDecrypt := fun b => b.drop 1,
          b64encode := fun b => b, b64decode := fun b => b,
          utf8Encode := fun s => s.toList, utf8Decode := fun l => String.mk l } "" = "" ∧
    decrypt_data
        { fernetEncrypt := fun b => 'F' :: b, fernetDecrypt := fun b => b.drop 1,
          b64encode := fun b => b, b64decode := fun b => b,
          utf8Encode := fun s => s.toList, utf8Decode := fun l => String.mk l } "" = "" :=
  claim_C10_encrypt_decrypt_roundtrip _
    (fun b => rfl) (fun b => rfl) (fun s => rfl) (fun b => rfl)
    (fun s hs => by
      unfold encrypt_data
      rw [if_neg hs]
      intro hab
      simp only [String.isEmpty_iff] at hab
      have := congrArg String.data hab
      simp at this)
